import Mathlib

/-!
Shallow embedding of the endless-runner game loop of this repository.

Two game variants exist in the source:

* the "grace" variant (the file with the `hit` intermediate state): gravity
  `-0.55` with y = height above ground, jump force `16`, speed increment
  `0.0005`, initial speed `7`, a minimum-gap check on obstacle spawning,
  an early return from the tick on obstacle collision, and a deferred
  (setTimeout, 1500 ms) transition from `hit` to `gameover`;
* the no-grace variant (`src/client/src/pages/game.tsx`): gravity `0.6`
  with y measured downward (jump force `-12`), speed increment `0.001`,
  initial speed `5`, unconditional obstacle spawning, and a direct
  transition to `gameover` that does not abort the tick.

All numeric state is modelled with `ℚ` (the JavaScript numbers appearing in
the game code are exactly representable). Each tick's `Math.random()` draws
are supplied as a record of rationals, one field per draw site.
-/

/-- Outcomes of the `Math.random()` calls a single tick can make, one field
per call site of the source's `update`. -/
structure RandDraws where
  obsRoll : ℚ
  typeRoll : ℚ
  posRoll : ℚ
  coinRoll : ℚ
  laneRoll : ℚ
deriving DecidableEq

/-- An axis-aligned rectangle, as used by the hitbox literals in the source. -/
structure Rect where
  x : ℚ
  y : ℚ
  w : ℚ
  h : ℚ
deriving DecidableEq

/-- The 4-way interval overlap test of the source:
`a.x < b.x + b.w && a.x + a.w > b.x && a.y < b.y + b.h && a.y + a.h > b.y`. -/
def rectsOverlap (a b : Rect) : Bool :=
  decide (a.x < b.x + b.w) && decide (a.x + a.w > b.x) &&
  decide (a.y < b.y + b.h) && decide (a.y + a.h > b.y)

namespace Grace

/-! ## The grace variant (the game file with the `hit` state) -/

/-- Source constant `const GRAVITY = -0.55`. -/
def GRAVITY : ℚ := -0.55

/-- Source constant `const JUMP_FORCE = 16`. -/
def JUMP_FORCE : ℚ := 16

/-- Source constant `const SPEED_INCREMENT = 0.0005`. -/
def SPEED_INCREMENT : ℚ := 0.0005

/-- Source state `playerRef.current = { y, dy, grounded }`. -/
structure Player where
  y : ℚ
  dy : ℚ
  grounded : Bool
deriving DecidableEq

/-- Source union `type: 'rock' | 'bush' | 'tree'`. -/
inductive ObsKind where
  | rock
  | bush
  | tree
deriving DecidableEq

/-- Entries of `obstaclesRef`: `{ id, x, w, h, type }`. -/
structure Obstacle where
  id : ℕ
  x : ℚ
  w : ℚ
  h : ℚ
  kind : ObsKind
deriving DecidableEq

/-- Entries of `coinsRef`: `{ id, x, y, collected }`. -/
structure Coin where
  id : ℕ
  x : ℚ
  y : ℚ
  collected : Bool
deriving DecidableEq

/-- Source union `gameState: "playing" | "hit" | "gameover"`. -/
inductive GState where
  | playing
  | hit
  | gameover
deriving DecidableEq

/-- The mutable refs and React state of the grace-variant component.
`pendingTimers` counts the `setTimeout(.., 1500)` callbacks that have been
scheduled but have not yet fired. -/
structure GameState where
  gameState : GState
  player : Player
  obstacles : List Obstacle
  coins : List Coin
  gameSpeed : ℚ
  score : ℚ
  coinCount : ℕ
  bgOffset : ℚ
  nextId : ℕ
  lastTime : Option ℚ
  pendingTimers : ℕ
deriving DecidableEq

/-- Physics portion of `update`: `dy += GRAVITY; y += dy;` then the ground
clamp `if (y < 0) { y = 0; dy = 0; grounded = true }`. -/
def physicsStep (p : Player) : Player :=
  let dy := p.dy + GRAVITY
  let y := p.y + dy
  if y < 0 then ⟨0, 0, true⟩ else ⟨y, dy, p.grounded⟩

/-- Obstacle spawning: with probability `0.015`, pick the kind by weighted
thresholds on `typeRoll`, and push at `1300 + posRoll * 300` unless the last
obstacle in the list has `x ≥ 800` (the minimum-distance check). Returns the
new list and the next fresh id. -/
def spawnObstacle (r : RandDraws) (obs : List Obstacle) (nextId : ℕ) :
    List Obstacle × ℕ :=
  if r.obsRoll < 0.015 then
    let k : ObsKind × ℚ × ℚ :=
      if r.typeRoll > 0.65 then (ObsKind.tree, 70, 90)
      else if r.typeRoll > 0.35 then (ObsKind.bush, 60, 50)
      else (ObsKind.rock, 50, 50)
    match obs.getLast? with
    | none =>
        (obs ++ [⟨nextId, 1300 + r.posRoll * 300, k.2.1, k.2.2, k.1⟩], nextId + 1)
    | some lastObs =>
        if lastObs.x < 800 then
          (obs ++ [⟨nextId, 1300 + r.posRoll * 300, k.2.1, k.2.2, k.1⟩], nextId + 1)
        else (obs, nextId)
  else (obs, nextId)

/-- Coin spawning: with probability `0.02`, push a coin at `x = 1300` and
lane height `160` or `70` by a fair draw. -/
def spawnCoin (r : RandDraws) (coins : List Coin) (nextId : ℕ) : List Coin × ℕ :=
  if r.coinRoll < 0.02 then
    (coins ++ [⟨nextId, 1300, if r.laneRoll > 0.5 then 160 else 70, false⟩],
     nextId + 1)
  else (coins, nextId)

/-- World advance: `obs.x -= gameSpeed` for every obstacle, then
`filter (obs.x > -200)`. -/
def advanceObstacles (speed : ℚ) (obs : List Obstacle) : List Obstacle :=
  (obs.map fun o => { o with x := o.x - speed }).filter fun o =>
    decide (o.x > -200)

/-- World advance: `c.x -= gameSpeed` for every coin, then
`filter (c.x > -100)`. -/
def advanceCoins (speed : ℚ) (coins : List Coin) : List Coin :=
  (coins.map fun c => { c with x := c.x - speed }).filter fun c =>
    decide (c.x > -100)

/-- Source literal `playerHitbox = { x: 100 + 20, y: player.y, w: 30, h: 60 }`. -/
def playerHitbox (p : Player) : Rect := ⟨120, p.y, 30, 60⟩

/-- Source literal `obsHitbox = { x: obs.x + 10, y: 0, w: obs.w - 20, h: obs.h - 10 }`. -/
def obstacleHitbox (o : Obstacle) : Rect := ⟨o.x + 10, 0, o.w - 20, o.h - 10⟩

/-- Source literal `coinHitbox = { x: c.x, y: c.y, w: 40, h: 40 }`. -/
def coinHitbox (c : Coin) : Rect := ⟨c.x, c.y, 40, 40⟩

/-- The obstacle collision scan: the `for (const obs of obstacles)` loop
fires iff some obstacle's hitbox overlaps the player hitbox. -/
def hitsObstacle (ph : Rect) (obs : List Obstacle) : Bool :=
  obs.any fun o => rectsOverlap ph (obstacleHitbox o)

/-- The coin collection pass: every uncollected coin overlapping the player
hitbox is marked collected, and `setCoins` is called once per such coin.
Returns the updated list together with the number of coins collected. -/
def collectCoins (ph : Rect) : List Coin → List Coin × ℕ
  | [] => ([], 0)
  | c :: rest =>
      let tail := collectCoins ph rest
      if !c.collected && rectsOverlap ph (coinHitbox c) then
        ({ c with collected := true } :: tail.1, tail.2 + 1)
      else (c :: tail.1, tail.2)

/-- One full tick of the grace variant's `update(time)` callback. -/
def update (time : ℚ) (r : RandDraws) (s : GameState) : GameState :=
  if s.gameState = GState.playing then
    let lastTime := match s.lastTime with
      | none => some time
      | some t => some t
    let player := physicsStep s.player
    let gameSpeed := s.gameSpeed + SPEED_INCREMENT
    let bgOffset := s.bgOffset + gameSpeed
    let ob := spawnObstacle r s.obstacles s.nextId
    let co := spawnCoin r s.coins ob.2
    let obstacles := advanceObstacles gameSpeed ob.1
    let coins := advanceCoins gameSpeed co.1
    let ph := playerHitbox player
    if hitsObstacle ph obstacles then
      { gameState := GState.hit, player := player, obstacles := obstacles,
        coins := coins, gameSpeed := gameSpeed, score := s.score,
        coinCount := s.coinCount, bgOffset := bgOffset, nextId := co.2,
        lastTime := lastTime, pendingTimers := s.pendingTimers + 1 }
    else
      let cc := collectCoins ph coins
      { gameState := GState.playing, player := player, obstacles := obstacles,
        coins := cc.1, gameSpeed := gameSpeed, score := s.score + 0.15,
        coinCount := s.coinCount + cc.2, bgOffset := bgOffset, nextId := co.2,
        lastTime := lastTime, pendingTimers := s.pendingTimers }
  else s

/-- Jump input handler `handleJump`: only when grounded and playing, set
`dy = JUMP_FORCE` and `grounded = false`; otherwise nothing happens. -/
def handleJump (s : GameState) : GameState :=
  if s.player.grounded ∧ s.gameState = GState.playing then
    { s with player := { s.player with dy := JUMP_FORCE, grounded := false } }
  else s

/-- Reset command `resetGame`: zero the player, empty both entity lists, restore the
initial speed, zero score, coin count and background offset, and set the
state to playing. The id counter, the last-frame time and any pending
`setTimeout` are untouched by the source's reset (there is no
`clearTimeout`). -/
def resetGame (s : GameState) : GameState :=
  { gameState := GState.playing, player := ⟨0, 0, true⟩, obstacles := [],
    coins := [], gameSpeed := 7, score := 0, coinCount := 0, bgOffset := 0,
    nextId := s.nextId, lastTime := s.lastTime,
    pendingTimers := s.pendingTimers }

/-- Expiry of one scheduled `setTimeout(() => setGameState("gameover"), 1500)`:
the callback sets the state to gameover unconditionally. -/
def timerFire (s : GameState) : GameState :=
  if 0 < s.pendingTimers then
    { s with gameState := GState.gameover, pendingTimers := s.pendingTimers - 1 }
  else s

/-- The state the component mounts with. -/
def initialState : GameState :=
  { gameState := GState.playing, player := ⟨0, 0, true⟩, obstacles := [],
    coins := [], gameSpeed := 7, score := 0, coinCount := 0, bgOffset := 0,
    nextId := 0, lastTime := none, pendingTimers := 0 }

end Grace

namespace NoGrace

/-! ## The no-grace variant (`src/client/src/pages/game.tsx`) -/

/-- Source constant `const GRAVITY = 0.6` (y grows downward in this variant; jumping sets a
negative velocity). -/
def GRAVITY : ℚ := 0.6

/-- Source constant `const JUMP_FORCE = -12`. -/
def JUMP_FORCE : ℚ := -12

/-- Source constant `const SPEED_INCREMENT = 0.001`. -/
def SPEED_INCREMENT : ℚ := 0.001

/-- Source state `playerRef.current = { y, dy, grounded }`. -/
structure Player where
  y : ℚ
  dy : ℚ
  grounded : Bool
deriving DecidableEq

/-- Source union `type: 'rock' | 'bush'`. -/
inductive ObsKind where
  | rock
  | bush
deriving DecidableEq

/-- Entries of `obstaclesRef`: `{ x, w, h, type }` (no ids in this variant). -/
structure Obstacle where
  x : ℚ
  w : ℚ
  h : ℚ
  kind : ObsKind
deriving DecidableEq

/-- Entries of `coinsRef`: `{ x, y, collected }`. -/
structure Coin where
  x : ℚ
  y : ℚ
  collected : Bool
deriving DecidableEq

/-- Source union `gameState: "playing" | "gameover"`. -/
inductive GState where
  | playing
  | gameover
deriving DecidableEq

/-- The mutable refs and React state of the no-grace component. -/
structure GameState where
  gameState : GState
  player : Player
  obstacles : List Obstacle
  coins : List Coin
  gameSpeed : ℚ
  score : ℚ
  coinCount : ℕ
  bgOffset : ℚ
  lastTime : Option ℚ
deriving DecidableEq

/-- Physics portion: `dy += GRAVITY; y += dy;` then `if (y > 0) { y = 0;
dy = 0; grounded = true }` (the ground clamp, downward sign convention). -/
def physicsStep (p : Player) : Player :=
  let dy := p.dy + GRAVITY
  let y := p.y + dy
  if y > 0 then ⟨0, 0, true⟩ else ⟨y, dy, p.grounded⟩

/-- Obstacle spawning: with probability `0.015`, push at `x = 1000`,
`w = h = 50`, kind by a fair draw. No minimum-gap check in this variant. -/
def spawnObstacle (r : RandDraws) (obs : List Obstacle) : List Obstacle :=
  if r.obsRoll < 0.015 then
    obs ++ [⟨1000, 50, 50, if r.typeRoll > 0.5 then ObsKind.rock else ObsKind.bush⟩]
  else obs

/-- Coin spawning: with probability `0.02`, push at `x = 1000`,
`y = -100` or `-50` by a fair draw. -/
def spawnCoin (r : RandDraws) (coins : List Coin) : List Coin :=
  if r.coinRoll < 0.02 then
    coins ++ [⟨1000, if r.laneRoll > 0.5 then -100 else -50, false⟩]
  else coins

/-- World advance: `obs.x -= gameSpeed` for every obstacle, then
`filter (obs.x > -100)`. -/
def advanceObstacles (speed : ℚ) (obs : List Obstacle) : List Obstacle :=
  (obs.map fun o => { o with x := o.x - speed }).filter fun o =>
    decide (o.x > -100)

/-- World advance: `c.x -= gameSpeed` for every coin, then
`filter (c.x > -100)`. -/
def advanceCoins (speed : ℚ) (coins : List Coin) : List Coin :=
  (coins.map fun c => { c with x := c.x - speed }).filter fun c =>
    decide (c.x > -100)

/-- Source literal `playerHitbox = { x: 50, y: 300 - player.y - 80, w: 40, h: 60 }`. -/
def playerHitbox (p : Player) : Rect := ⟨50, 300 - p.y - 80, 40, 60⟩

/-- Source literal `obsHitbox = { x: obs.x, y: 300 - obs.h, w: obs.w, h: obs.h }`. -/
def obstacleHitbox (o : Obstacle) : Rect := ⟨o.x, 300 - o.h, o.w, o.h⟩

/-- Source literal `coinHitbox = { x: c.x, y: 300 + c.y, w: 30, h: 30 }`. -/
def coinHitbox (c : Coin) : Rect := ⟨c.x, 300 + c.y, 30, 30⟩

/-- The obstacle scan of this variant: the loop body only calls
`setGameState("gameover")` and does not break, so its net effect is
gameover iff some obstacle overlaps. -/
def hitsObstacle (ph : Rect) (obs : List Obstacle) : Bool :=
  obs.any fun o => rectsOverlap ph (obstacleHitbox o)

/-- Coin collection pass, identical in shape to the grace variant's. -/
def collectCoins (ph : Rect) : List Coin → List Coin × ℕ
  | [] => ([], 0)
  | c :: rest =>
      let tail := collectCoins ph rest
      if !c.collected && rectsOverlap ph (coinHitbox c) then
        ({ c with collected := true } :: tail.1, tail.2 + 1)
      else (c :: tail.1, tail.2)

/-- One full tick of the no-grace variant's `update(time)` callback. The
collision loop does not return early: coin collection and the score
increment run even on a colliding tick. -/
def update (time : ℚ) (r : RandDraws) (s : GameState) : GameState :=
  if s.gameState = GState.playing then
    let lastTime := some time
    let player := physicsStep s.player
    let gameSpeed := s.gameSpeed + SPEED_INCREMENT
    let bgOffset := s.bgOffset + gameSpeed
    let obstacles := advanceObstacles gameSpeed (spawnObstacle r s.obstacles)
    let coins := advanceCoins gameSpeed (spawnCoin r s.coins)
    let ph := playerHitbox player
    let gameState :=
      if hitsObstacle ph obstacles then GState.gameover else GState.playing
    let cc := collectCoins ph coins
    { gameState := gameState, player := player, obstacles := obstacles,
      coins := cc.1, gameSpeed := gameSpeed, score := s.score + 0.1,
      coinCount := s.coinCount + cc.2, bgOffset := bgOffset,
      lastTime := lastTime }
  else s

/-- Jump input handler `handleJump`: only when grounded and playing, set
`dy = JUMP_FORCE` and `grounded = false`; otherwise nothing happens. -/
def handleJump (s : GameState) : GameState :=
  if s.player.grounded ∧ s.gameState = GState.playing then
    { s with player := { s.player with dy := JUMP_FORCE, grounded := false } }
  else s

/-- Reset command `resetGame` of the no-grace variant. -/
def resetGame (s : GameState) : GameState :=
  { gameState := GState.playing, player := ⟨0, 0, true⟩, obstacles := [],
    coins := [], gameSpeed := 5, score := 0, coinCount := 0, bgOffset := 0,
    lastTime := s.lastTime }

end NoGrace

/-! ## Shared concrete inputs used by witnesses and counterexamples -/

/-- A draw record that makes every spawn roll fail. -/
def rollsNoSpawn : RandDraws := ⟨1, 1, 0, 1, 1⟩

/-- A draw record that makes the obstacle spawn roll succeed (and the coin
roll fail). -/
def rollsObstacleSpawn : RandDraws := ⟨0.01, 0.6, 0, 1, 1⟩

/-- A grace-variant state whose single obstacle overlaps the player on the
next tick. -/
def graceCollisionState : Grace.GameState :=
  { Grace.initialState with
      obstacles := [⟨0, 140, 50, 50, Grace.ObsKind.rock⟩], nextId := 1 }

/-- A no-grace state whose single obstacle overlaps the player on the next
tick, with an uncollected coin also overlapping the player. -/
def ngCollisionState : NoGrace.GameState :=
  { gameState := NoGrace.GState.playing, player := ⟨0, 0, true⟩,
    obstacles := [⟨60, 50, 50, NoGrace.ObsKind.rock⟩],
    coins := [⟨60, -50, false⟩], gameSpeed := 5, score := 0, coinCount := 0,
    bgOffset := 0, lastTime := none }

/-- A no-grace state whose single obstacle sits exactly at the spawn
position `x = 1000`. -/
def ngCloseObstacleState : NoGrace.GameState :=
  { gameState := NoGrace.GState.playing, player := ⟨0, 0, true⟩,
    obstacles := [⟨1000, 50, 50, NoGrace.ObsKind.rock⟩], coins := [],
    gameSpeed := 5, score := 0, coinCount := 0, bgOffset := 0,
    lastTime := none }

/-! ## Helper lemmas -/

/-- The ground clamp of the grace variant leaves the player at or above the
ground. -/
theorem Grace.physicsStep_y_nonneg (p : Grace.Player) :
    0 ≤ (Grace.physicsStep p).y := by
  simp only [Grace.physicsStep]
  split
  · simp
  · rename_i h
    push_neg at h
    simpa using h

/-- The ground clamp of the no-grace variant leaves the player at or below
zero (its y axis points downward). -/
theorem NoGrace.physicsStep_y_nonpos (p : NoGrace.Player) :
    (NoGrace.physicsStep p).y ≤ 0 := by
  simp only [NoGrace.physicsStep]
  split
  · simp
  · rename_i h
    push_neg at h
    simpa using h

/-! ## C3: the physics integrator contract -/

/-- C3: on every tick executed while the state is playing, the player is
updated by `v := dy + GRAVITY; y := y + v`, and when the new position
crosses the ground plane (downward in the grace variant, upward in the
no-grace variant whose y axis points down) the position is clamped to the
ground, the velocity zeroed, and `grounded` set. -/
theorem physics_integrator_contract :
    (∀ (t : ℚ) (r : RandDraws) (s : Grace.GameState),
        s.gameState = Grace.GState.playing →
        (Grace.update t r s).player =
          if s.player.y + (s.player.dy + Grace.GRAVITY) < 0 then
            ⟨0, 0, true⟩
          else
            ⟨s.player.y + (s.player.dy + Grace.GRAVITY),
             s.player.dy + Grace.GRAVITY, s.player.grounded⟩) ∧
    (∀ (t : ℚ) (r : RandDraws) (s : NoGrace.GameState),
        s.gameState = NoGrace.GState.playing →
        (NoGrace.update t r s).player =
          if s.player.y + (s.player.dy + NoGrace.GRAVITY) > 0 then
            ⟨0, 0, true⟩
          else
            ⟨s.player.y + (s.player.dy + NoGrace.GRAVITY),
             s.player.dy + NoGrace.GRAVITY, s.player.grounded⟩) := by
  constructor
  · intro t r s hs
    simp only [Grace.update, hs, if_pos]
    split <;> simp [Grace.physicsStep]
  · intro t r s hs
    simp only [NoGrace.update, hs, if_pos]
    simp [NoGrace.physicsStep]

/-- Witness for C3 at a concrete state: one tick from the initial grace
state leaves the player clamped to the ground. -/
theorem physics_integrator_contract_witness :
    (Grace.update 0 rollsNoSpawn Grace.initialState).player = ⟨0, 0, true⟩ := by
  have h := physics_integrator_contract.1 0 rollsNoSpawn Grace.initialState rfl
  rw [h]
  norm_num [Grace.initialState, Grace.GRAVITY]

/-! ## C4: the ground-clamp invariant -/

/-- C4: on every tick executed while playing, the player's height above the
ground is nonnegative at the end of the tick. In the grace variant the
stored `y` is the height itself; in the no-grace variant the y axis points
downward, so the height above ground is `-y`. -/
theorem vertical_offset_nonneg :
    (∀ (t : ℚ) (r : RandDraws) (s : Grace.GameState),
        s.gameState = Grace.GState.playing →
        0 ≤ (Grace.update t r s).player.y) ∧
    (∀ (t : ℚ) (r : RandDraws) (s : NoGrace.GameState),
        s.gameState = NoGrace.GState.playing →
        0 ≤ -(NoGrace.update t r s).player.y) := by
  constructor
  · intro t r s hs
    simp only [Grace.update, hs, if_pos]
    split
    · exact Grace.physicsStep_y_nonneg s.player
    · exact Grace.physicsStep_y_nonneg s.player
  · intro t r s hs
    simp only [NoGrace.update, hs, if_pos]
    simpa using NoGrace.physicsStep_y_nonpos s.player

/-- Witness for C4: one tick from each variant's freshly reset state keeps
the player at the ground. -/
theorem vertical_offset_nonneg_witness :
    0 ≤ (Grace.update 0 rollsNoSpawn Grace.initialState).player.y ∧
    0 ≤ -(NoGrace.update 0 rollsNoSpawn (NoGrace.resetGame ngCollisionState)).player.y := by
  constructor
  · exact vertical_offset_nonneg.1 0 rollsNoSpawn Grace.initialState rfl
  · exact vertical_offset_nonneg.2 0 rollsNoSpawn (NoGrace.resetGame ngCollisionState) rfl

/-! ## C5: the jump request -/

/-- C5: `handleJump` sets the vertical velocity to the jump impulse and
clears `grounded` exactly when the player is grounded and the state is
playing; in every other situation it leaves the whole game state
unchanged. Both variants behave this way, with their own impulse
constants. -/
theorem jump_request_guard :
    (∀ s : Grace.GameState,
        (s.player.grounded = true ∧ s.gameState = Grace.GState.playing →
          Grace.handleJump s =
            { s with player := ⟨s.player.y, Grace.JUMP_FORCE, false⟩ }) ∧
        (¬(s.player.grounded = true ∧ s.gameState = Grace.GState.playing) →
          Grace.handleJump s = s)) ∧
    (∀ s : NoGrace.GameState,
        (s.player.grounded = true ∧ s.gameState = NoGrace.GState.playing →
          NoGrace.handleJump s =
            { s with player := ⟨s.player.y, NoGrace.JUMP_FORCE, false⟩ }) ∧
        (¬(s.player.grounded = true ∧ s.gameState = NoGrace.GState.playing) →
          NoGrace.handleJump s = s)) := by
  constructor
  · intro s
    constructor
    · intro h
      simp only [Grace.handleJump, h.1, h.2, if_pos, and_self]
    · intro h
      rw [Grace.handleJump, if_neg]
      simpa using h
  · intro s
    constructor
    · intro h
      simp only [NoGrace.handleJump, h.1, h.2, if_pos, and_self]
    · intro h
      rw [NoGrace.handleJump, if_neg]
      simpa using h

/-- Witness for C5: jumping from the initial grace state sets the impulse,
and jumping again while airborne changes nothing. -/
theorem jump_request_guard_witness :
    Grace.handleJump Grace.initialState =
      { Grace.initialState with player := ⟨0, Grace.JUMP_FORCE, false⟩ } ∧
    Grace.handleJump { Grace.initialState with player := ⟨0, Grace.JUMP_FORCE, false⟩ } =
      { Grace.initialState with player := ⟨0, Grace.JUMP_FORCE, false⟩ } := by
  constructor
  · exact (jump_request_guard.1 Grace.initialState).1 ⟨rfl, rfl⟩
  · exact (jump_request_guard.1
      { Grace.initialState with player := ⟨0, Grace.JUMP_FORCE, false⟩ }).2 (by simp)

/-! ## C7: reset produces the zeroed initial state and is idempotent -/

/-- C7: from any state, `resetGame` yields score 0, coin count 0, empty
entity lists, a grounded player at the origin with zero velocity, the
initial scroll speed (7 in the grace variant, 5 in the no-grace variant),
and the playing state; applying it twice gives exactly the state it gives
once. -/
theorem reset_zeroes_and_idempotent :
    (∀ s : Grace.GameState,
        (Grace.resetGame s).score = 0 ∧
        (Grace.resetGame s).coinCount = 0 ∧
        (Grace.resetGame s).obstacles = [] ∧
        (Grace.resetGame s).coins = [] ∧
        (Grace.resetGame s).player = ⟨0, 0, true⟩ ∧
        (Grace.resetGame s).gameSpeed = 7 ∧
        (Grace.resetGame s).gameState = Grace.GState.playing ∧
        Grace.resetGame (Grace.resetGame s) = Grace.resetGame s) ∧
    (∀ s : NoGrace.GameState,
        (NoGrace.resetGame s).score = 0 ∧
        (NoGrace.resetGame s).coinCount = 0 ∧
        (NoGrace.resetGame s).obstacles = [] ∧
        (NoGrace.resetGame s).coins = [] ∧
        (NoGrace.resetGame s).player = ⟨0, 0, true⟩ ∧
        (NoGrace.resetGame s).gameSpeed = 5 ∧
        (NoGrace.resetGame s).gameState = NoGrace.GState.playing ∧
        NoGrace.resetGame (NoGrace.resetGame s) = NoGrace.resetGame s) := by
  constructor
  · intro s
    refine ⟨rfl, rfl, rfl, rfl, rfl, rfl, rfl, rfl⟩
  · intro s
    refine ⟨rfl, rfl, rfl, rfl, rfl, rfl, rfl, rfl⟩

/-! ## C6: the axis-aligned overlap test -/

/-- Spec-side notion for C6: a point lying strictly inside both open
intervals, i.e. the two intervals genuinely intersect. -/
def intervalsIntersect (l1 r1 l2 r2 : ℚ) : Prop :=
  ∃ t : ℚ, l1 < t ∧ t < r1 ∧ l2 < t ∧ t < r2

/-- Two nonempty open intervals intersect exactly when each left endpoint
lies below the other interval's right endpoint. -/
theorem intervalsIntersect_iff (l1 r1 l2 r2 : ℚ) (h1 : l1 < r1)
    (h2 : l2 < r2) :
    intervalsIntersect l1 r1 l2 r2 ↔ l1 < r2 ∧ l2 < r1 := by
  constructor
  · rintro ⟨t, ht1, ht2, ht3, ht4⟩
    exact ⟨lt_trans ht1 ht4, lt_trans ht3 ht2⟩
  · rintro ⟨hA, hB⟩
    refine ⟨(max l1 l2 + min r1 r2) / 2, ?_, ?_, ?_, ?_⟩
    · have h3 : max l1 l2 < min r1 r2 := max_lt (lt_min h1 hA) (lt_min hB h2)
      have h4 : l1 ≤ max l1 l2 := le_max_left _ _
      linarith
    · have h3 : max l1 l2 < min r1 r2 := max_lt (lt_min h1 hA) (lt_min hB h2)
      have h4 : min r1 r2 ≤ r1 := min_le_left _ _
      linarith
    · have h3 : max l1 l2 < min r1 r2 := max_lt (lt_min h1 hA) (lt_min hB h2)
      have h4 : l2 ≤ max l1 l2 := le_max_right _ _
      linarith
    · have h3 : max l1 l2 < min r1 r2 := max_lt (lt_min h1 hA) (lt_min hB h2)
      have h4 : min r1 r2 ≤ r2 := min_le_right _ _
      linarith

/-- C6: for rectangles of positive width and height, the source's 4-way
strict-inequality test registers a collision exactly when the two
rectangles' x-intervals intersect and their y-intervals intersect; disjoint
projections on either axis never collide, overlap on both axes always
does. -/
theorem collision_test_is_interval_test (a b : Rect) (haw : 0 < a.w)
    (hah : 0 < a.h) (hbw : 0 < b.w) (hbh : 0 < b.h) :
    rectsOverlap a b = true ↔
      intervalsIntersect a.x (a.x + a.w) b.x (b.x + b.w) ∧
      intervalsIntersect a.y (a.y + a.h) b.y (b.y + b.h) := by
  rw [intervalsIntersect_iff _ _ _ _ (by linarith) (by linarith),
    intervalsIntersect_iff _ _ _ _ (by linarith) (by linarith)]
  simp only [rectsOverlap, Bool.and_eq_true, decide_eq_true_eq]
  constructor
  · rintro ⟨⟨⟨hx1, hx2⟩, hy1⟩, hy2⟩
    exact ⟨⟨hx1, by linarith⟩, ⟨hy1, by linarith⟩⟩
  · rintro ⟨⟨hx1, hx2⟩, ⟨hy1, hy2⟩⟩
    exact ⟨⟨⟨hx1, by linarith⟩, hy1⟩, by linarith⟩

/-- Witness for C6 at concrete rectangles: the unit-offset squares overlap
and the test fires. -/
theorem collision_test_is_interval_test_witness :
    rectsOverlap ⟨0, 0, 2, 2⟩ ⟨1, 1, 2, 2⟩ = true ↔
      intervalsIntersect 0 (0 + 2) 1 (1 + 2) ∧
      intervalsIntersect 0 (0 + 2) 1 (1 + 2) := by
  exact collision_test_is_interval_test ⟨0, 0, 2, 2⟩ ⟨1, 1, 2, 2⟩
    (by norm_num) (by norm_num) (by norm_num) (by norm_num)

/-! ## Membership lemmas for the per-tick list passes -/

/-- Grace variant: every obstacle surviving the advance-and-prune pass lies
strictly right of the prune threshold `-200`. -/
theorem Grace.mem_advanceObstacles {sp : ℚ} {l : List Grace.Obstacle}
    {o : Grace.Obstacle} (h : o ∈ Grace.advanceObstacles sp l) :
    -200 < o.x := by
  have h2 := List.mem_filter.mp h
  simpa using h2.2

/-- Grace variant: every coin surviving the advance-and-prune pass lies
strictly right of the prune threshold `-100`. -/
theorem Grace.mem_advanceCoins {sp : ℚ} {l : List Grace.Coin}
    {c : Grace.Coin} (h : c ∈ Grace.advanceCoins sp l) :
    -100 < c.x := by
  have h2 := List.mem_filter.mp h
  simpa using h2.2

/-- Grace variant: every coin surviving the advance-and-prune pass is a
shifted copy of a coin of the input list. -/
theorem Grace.mem_advanceCoins_shift {sp : ℚ} {l : List Grace.Coin}
    {c : Grace.Coin} (h : c ∈ Grace.advanceCoins sp l) :
    ∃ c0 ∈ l, c = { c0 with x := c0.x - sp } := by
  have h2 := List.mem_filter.mp h
  obtain ⟨c0, hc0, he⟩ := List.mem_map.mp h2.1
  exact ⟨c0, hc0, he.symm⟩

/-- Grace variant: the coin-collection pass only changes `collected` flags:
every output coin agrees with some input coin on `id`, `x` and `y`, and an
output coin is collected only if the matching input coin was collected or
overlapped the player hitbox. -/
theorem Grace.collectCoins_mem {ph : Rect} {l : List Grace.Coin}
    {c : Grace.Coin} (h : c ∈ (Grace.collectCoins ph l).1) :
    ∃ c0 ∈ l, c.id = c0.id ∧ c.x = c0.x ∧ c.y = c0.y := by
  induction l with
  | nil => simp [Grace.collectCoins] at h
  | cons d rest ih =>
      simp only [Grace.collectCoins] at h
      split at h
      · rcases List.mem_cons.mp h with h1 | h1
        · exact ⟨d, List.mem_cons_self d rest, by simp [h1]⟩
        · obtain ⟨c0, hc0, he⟩ := ih h1
          exact ⟨c0, List.mem_cons_of_mem d hc0, he⟩
      · rcases List.mem_cons.mp h with h1 | h1
        · exact ⟨d, List.mem_cons_self d rest, by simp [h1]⟩
        · obtain ⟨c0, hc0, he⟩ := ih h1
          exact ⟨c0, List.mem_cons_of_mem d hc0, he⟩

/-- No-grace variant: every obstacle surviving the advance-and-prune pass
lies strictly right of the prune threshold `-100`. -/
theorem NoGrace.mem_advanceObstaclesNG {sp : ℚ} {l : List NoGrace.Obstacle}
    {o : NoGrace.Obstacle} (h : o ∈ NoGrace.advanceObstacles sp l) :
    -100 < o.x := by
  have h2 := List.mem_filter.mp h
  simpa using h2.2

/-- No-grace variant: every coin surviving the advance-and-prune pass lies
strictly right of the prune threshold `-100`. -/
theorem NoGrace.mem_advanceCoinsNG {sp : ℚ} {l : List NoGrace.Coin}
    {c : NoGrace.Coin} (h : c ∈ NoGrace.advanceCoins sp l) :
    -100 < c.x := by
  have h2 := List.mem_filter.mp h
  simpa using h2.2

/-- No-grace variant: the coin-collection pass only changes `collected`
flags, preserving each coin's position. -/
theorem NoGrace.collectCoins_memNG {ph : Rect} {l : List NoGrace.Coin}
    {c : NoGrace.Coin} (h : c ∈ (NoGrace.collectCoins ph l).1) :
    ∃ c0 ∈ l, c.x = c0.x ∧ c.y = c0.y := by
  induction l with
  | nil => simp [NoGrace.collectCoins] at h
  | cons d rest ih =>
      simp only [NoGrace.collectCoins] at h
      split at h
      · rcases List.mem_cons.mp h with h1 | h1
        · exact ⟨d, List.mem_cons_self d rest, by simp [h1]⟩
        · obtain ⟨c0, hc0, he⟩ := ih h1
          exact ⟨c0, List.mem_cons_of_mem d hc0, he⟩
      · rcases List.mem_cons.mp h with h1 | h1
        · exact ⟨d, List.mem_cons_self d rest, by simp [h1]⟩
        · obtain ⟨c0, hc0, he⟩ := ih h1
          exact ⟨c0, List.mem_cons_of_mem d hc0, he⟩

/-! ## C8: the prune invariant -/

/-- C8: after any tick executed while playing, every obstacle and coin left
in the entity lists lies strictly above its prune threshold (`-200` for
grace-variant obstacles, `-100` for grace-variant coins and for everything
in the no-grace variant). -/
theorem prune_invariant :
    (∀ (t : ℚ) (r : RandDraws) (s : Grace.GameState),
        s.gameState = Grace.GState.playing →
        (∀ o ∈ (Grace.update t r s).obstacles, -200 < o.x) ∧
        (∀ c ∈ (Grace.update t r s).coins, -100 < c.x)) ∧
    (∀ (t : ℚ) (r : RandDraws) (s : NoGrace.GameState),
        s.gameState = NoGrace.GState.playing →
        (∀ o ∈ (NoGrace.update t r s).obstacles, -100 < o.x) ∧
        (∀ c ∈ (NoGrace.update t r s).coins, -100 < c.x)) := by
  constructor
  · intro t r s hs
    simp only [Grace.update, hs, if_pos]
    split
    · exact ⟨fun o ho => Grace.mem_advanceObstacles ho,
        fun c hc => Grace.mem_advanceCoins hc⟩
    · refine ⟨fun o ho => Grace.mem_advanceObstacles ho, fun c hc => ?_⟩
      obtain ⟨c0, hc0, _, hx, _⟩ := Grace.collectCoins_mem hc
      rw [hx]
      exact Grace.mem_advanceCoins hc0
  · intro t r s hs
    simp only [NoGrace.update, hs, if_pos]
    refine ⟨fun o ho => NoGrace.mem_advanceObstaclesNG ho, fun c hc => ?_⟩
    obtain ⟨c0, hc0, hx, _⟩ := NoGrace.collectCoins_memNG hc
    rw [hx]
    exact NoGrace.mem_advanceCoinsNG hc0

/-- Witness for C8: one tick from the grace collision state and from the
no-grace collision state leaves only entities above the thresholds. -/
theorem prune_invariant_witness :
    (∀ o ∈ (Grace.update 0 rollsNoSpawn graceCollisionState).obstacles,
      -200 < o.x) ∧
    (∀ c ∈ (NoGrace.update 0 rollsNoSpawn ngCollisionState).coins,
      -100 < c.x) := by
  constructor
  · exact (prune_invariant.1 0 rollsNoSpawn graceCollisionState rfl).1
  · exact (prune_invariant.2 0 rollsNoSpawn ngCollisionState rfl).2

/-! ## C10: the tick is independent of its timestamp argument -/

/-- C10: running one tick from the same state with the same random draws
but different timestamp arguments yields the same run state, player,
entity lists, scroll speed, score and coin count, in both variants (the
timestamp only feeds the stored last-frame time). -/
theorem tick_timestamp_independent :
    (∀ (t1 t2 : ℚ) (r : RandDraws) (s : Grace.GameState),
        (Grace.update t1 r s).gameState = (Grace.update t2 r s).gameState ∧
        (Grace.update t1 r s).player = (Grace.update t2 r s).player ∧
        (Grace.update t1 r s).obstacles = (Grace.update t2 r s).obstacles ∧
        (Grace.update t1 r s).coins = (Grace.update t2 r s).coins ∧
        (Grace.update t1 r s).gameSpeed = (Grace.update t2 r s).gameSpeed ∧
        (Grace.update t1 r s).score = (Grace.update t2 r s).score ∧
        (Grace.update t1 r s).coinCount = (Grace.update t2 r s).coinCount) ∧
    (∀ (t1 t2 : ℚ) (r : RandDraws) (s : NoGrace.GameState),
        (NoGrace.update t1 r s).gameState = (NoGrace.update t2 r s).gameState ∧
        (NoGrace.update t1 r s).player = (NoGrace.update t2 r s).player ∧
        (NoGrace.update t1 r s).obstacles = (NoGrace.update t2 r s).obstacles ∧
        (NoGrace.update t1 r s).coins = (NoGrace.update t2 r s).coins ∧
        (NoGrace.update t1 r s).gameSpeed = (NoGrace.update t2 r s).gameSpeed ∧
        (NoGrace.update t1 r s).score = (NoGrace.update t2 r s).score ∧
        (NoGrace.update t1 r s).coinCount = (NoGrace.update t2 r s).coinCount) := by
  constructor
  · intro t1 t2 r s
    simp only [Grace.update]
    split
    · split <;> simp
    · simp
  · intro t1 t2 r s
    simp only [NoGrace.update]
    split <;> simp

/-- Grace variant: a coin in the output of the spawn pass is either an
input coin or the freshly spawned coin, which is uncollected. -/
theorem Grace.mem_spawnCoin {r : RandDraws} {l : List Grace.Coin} {n : ℕ}
    {c0 : Grace.Coin} (h : c0 ∈ (Grace.spawnCoin r l n).1) :
    c0 ∈ l ∨ c0.collected = false := by
  simp only [Grace.spawnCoin] at h
  split at h
  · rcases List.mem_append.mp h with h1 | h1
    · exact Or.inl h1
    · right
      simp only [List.mem_singleton] at h1
      simp [h1]
  · exact Or.inl h

/-! ## C1: collision handling, per variant -/

/-- C1 (amended): while playing, an obstacle overlap on the tick moves the
grace variant to `hit`, schedules the deferred game-over, and aborts the
rest of the tick (score and coin count unchanged, no coin newly marked
collected); the no-grace variant moves to `gameover` on the same condition
but does not abort: its score still increases by `0.1` on that tick. -/
theorem collision_ends_run_per_variant :
    (∀ (t : ℚ) (r : RandDraws) (s : Grace.GameState),
        s.gameState = Grace.GState.playing →
        Grace.hitsObstacle
            (Grace.playerHitbox (Grace.physicsStep s.player))
            (Grace.advanceObstacles (s.gameSpeed + Grace.SPEED_INCREMENT)
              (Grace.spawnObstacle r s.obstacles s.nextId).1) = true →
        (Grace.update t r s).gameState = Grace.GState.hit ∧
        (Grace.update t r s).score = s.score ∧
        (Grace.update t r s).coinCount = s.coinCount ∧
        (Grace.update t r s).pendingTimers = s.pendingTimers + 1 ∧
        (∀ c ∈ (Grace.update t r s).coins, c.collected = true →
          ∃ c0 ∈ s.coins, c0.collected = true)) ∧
    (∀ (t : ℚ) (r : RandDraws) (s : NoGrace.GameState),
        s.gameState = NoGrace.GState.playing →
        NoGrace.hitsObstacle
            (NoGrace.playerHitbox (NoGrace.physicsStep s.player))
            (NoGrace.advanceObstacles (s.gameSpeed + NoGrace.SPEED_INCREMENT)
              (NoGrace.spawnObstacle r s.obstacles)) = true →
        (NoGrace.update t r s).gameState = NoGrace.GState.gameover ∧
        (NoGrace.update t r s).score = s.score + 0.1) := by
  constructor
  · intro t r s hs hhit
    simp only [Grace.update, hs, if_pos, hhit, if_true]
    refine ⟨trivial, trivial, trivial, trivial, fun c hc hcol => ?_⟩
    obtain ⟨c0, hc0, he⟩ := Grace.mem_advanceCoins_shift hc
    have hcol0 : c0.collected = true := by
      rw [he] at hcol
      exact hcol
    rcases Grace.mem_spawnCoin hc0 with h1 | h1
    · exact ⟨c0, h1, hcol0⟩
    · rw [h1] at hcol0
      exact absurd hcol0 (by simp)
  · intro t r s hs hhit
    simp only [NoGrace.update, hs, if_pos, hhit, if_true]
    exact ⟨trivial, trivial⟩

/-- Counterexample to C1 as stated: in the no-grace variant, on a tick
whose obstacle scan fires, a coin is nevertheless collected, the coin count
is incremented, and the score is incremented. -/
theorem collision_ends_run_counterexample :
    NoGrace.hitsObstacle
        (NoGrace.playerHitbox (NoGrace.physicsStep ngCollisionState.player))
        (NoGrace.advanceObstacles
          (ngCollisionState.gameSpeed + NoGrace.SPEED_INCREMENT)
          (NoGrace.spawnObstacle rollsNoSpawn ngCollisionState.obstacles)) = true ∧
    (NoGrace.update 0 rollsNoSpawn ngCollisionState).gameState =
      NoGrace.GState.gameover ∧
    (NoGrace.update 0 rollsNoSpawn ngCollisionState).coinCount = 1 ∧
    (NoGrace.update 0 rollsNoSpawn ngCollisionState).score = 0.1 := by
  norm_num [NoGrace.update, ngCollisionState, rollsNoSpawn, NoGrace.physicsStep,
    NoGrace.GRAVITY, NoGrace.SPEED_INCREMENT, NoGrace.spawnObstacle,
    NoGrace.spawnCoin, NoGrace.advanceObstacles, NoGrace.advanceCoins,
    NoGrace.playerHitbox, NoGrace.obstacleHitbox, NoGrace.coinHitbox,
    NoGrace.hitsObstacle, NoGrace.collectCoins, rectsOverlap]

/-- Witness for the amended C1 at concrete states: the grace collision
state transitions to `hit` with its score and coin count frozen, while the
no-grace collision state reaches `gameover` with its score still bumped. -/
theorem collision_ends_run_per_variant_witness :
    ((Grace.update 0 rollsNoSpawn graceCollisionState).gameState =
        Grace.GState.hit ∧
      (Grace.update 0 rollsNoSpawn graceCollisionState).score =
        graceCollisionState.score) ∧
    (NoGrace.update 0 rollsNoSpawn ngCollisionState).score =
      ngCollisionState.score + 0.1 := by
  have hg := collision_ends_run_per_variant.1 0 rollsNoSpawn
    graceCollisionState rfl (by
      norm_num [graceCollisionState, Grace.initialState, rollsNoSpawn,
        Grace.physicsStep, Grace.GRAVITY, Grace.SPEED_INCREMENT,
        Grace.spawnObstacle, Grace.advanceObstacles, Grace.playerHitbox,
        Grace.obstacleHitbox, Grace.hitsObstacle, rectsOverlap])
  have hn := collision_ends_run_per_variant.2 0 rollsNoSpawn
    ngCollisionState rfl (by
      norm_num [ngCollisionState, rollsNoSpawn, NoGrace.physicsStep,
        NoGrace.GRAVITY, NoGrace.SPEED_INCREMENT, NoGrace.spawnObstacle,
        NoGrace.advanceObstacles, NoGrace.playerHitbox,
        NoGrace.obstacleHitbox, NoGrace.hitsObstacle, rectsOverlap])
  exact ⟨⟨hg.1, hg.2.1⟩, hn.2⟩

/-! ## C2: the deferred hit-to-gameover action versus reset -/

/-- C2 fails on the code: a collision moves the grace variant to `hit` and
schedules the deferred game-over; `resetGame` returns the state to playing
but leaves the scheduled action pending (the source has no `clearTimeout`),
and when the action fires it moves the freshly reset, collision-free
playing run straight to `gameover`. -/
theorem stale_timer_outlives_reset :
    (Grace.update 0 rollsNoSpawn graceCollisionState).gameState =
      Grace.GState.hit ∧
    (Grace.update 0 rollsNoSpawn graceCollisionState).pendingTimers = 1 ∧
    (Grace.resetGame (Grace.update 0 rollsNoSpawn graceCollisionState)).gameState =
      Grace.GState.playing ∧
    (Grace.resetGame (Grace.update 0 rollsNoSpawn graceCollisionState)).pendingTimers = 1 ∧
    (Grace.timerFire (Grace.resetGame
        (Grace.update 0 rollsNoSpawn graceCollisionState))).gameState =
      Grace.GState.gameover := by
  have h : (Grace.update 0 rollsNoSpawn graceCollisionState).gameState =
      Grace.GState.hit ∧
      (Grace.update 0 rollsNoSpawn graceCollisionState).pendingTimers = 1 := by
    norm_num [Grace.update, graceCollisionState, Grace.initialState,
      rollsNoSpawn, Grace.physicsStep, Grace.GRAVITY, Grace.SPEED_INCREMENT,
      Grace.spawnObstacle, Grace.spawnCoin, Grace.advanceObstacles,
      Grace.advanceCoins, Grace.playerHitbox, Grace.obstacleHitbox,
      Grace.coinHitbox, Grace.hitsObstacle, Grace.collectCoins, rectsOverlap]
  refine ⟨h.1, h.2, rfl, ?_, ?_⟩
  · simpa [Grace.resetGame] using h.2
  · simp [Grace.timerFire, Grace.resetGame, h.2]

/-! ## C9: the minimum spawn gap -/

/-- C9 (amended, grace variant): when the obstacle-spawn roll succeeds and
an obstacle is already present, the spawn is either rejected (the last
obstacle sits at `x ≥ 800`) or the appended obstacle spawns more than 500
ahead of the last one (spawn position at least 1300 versus `x < 800`). -/
theorem min_gap_enforced_grace (r : RandDraws) (obs : List Grace.Obstacle)
    (nextId : ℕ) (L : Grace.Obstacle) (hroll : r.obsRoll < 0.015)
    (hlast : obs.getLast? = some L) (hpos : 0 ≤ r.posRoll) :
    (Grace.spawnObstacle r obs nextId).1 = obs ∨
    ∃ o, (Grace.spawnObstacle r obs nextId).1 = obs ++ [o] ∧
      L.x + 500 < o.x := by
  simp only [Grace.spawnObstacle, hroll, if_true, hlast]
  by_cases hL : L.x < 800
  · right
    rw [if_pos hL]
    refine ⟨_, rfl, ?_⟩
    have h300 : 0 ≤ r.posRoll * 300 := by positivity
    show L.x + 500 < 1300 + r.posRoll * 300
    linarith
  · left
    rw [if_neg hL]

/-- Witness for the amended C9: from a list whose last obstacle sits at
`x = 700`, a successful spawn roll appends an obstacle more than 500
ahead. -/
theorem min_gap_enforced_grace_witness :
    (Grace.spawnObstacle rollsObstacleSpawn
        [⟨0, 700, 50, 50, Grace.ObsKind.rock⟩] 1).1 =
      [⟨0, 700, 50, 50, Grace.ObsKind.rock⟩] ∨
    ∃ o, (Grace.spawnObstacle rollsObstacleSpawn
        [⟨0, 700, 50, 50, Grace.ObsKind.rock⟩] 1).1 =
      [⟨0, 700, 50, 50, Grace.ObsKind.rock⟩] ++ [o] ∧
      (700 : ℚ) + 500 < o.x := by
  exact min_gap_enforced_grace rollsObstacleSpawn
    [⟨0, 700, 50, 50, Grace.ObsKind.rock⟩] 1 ⟨0, 700, 50, 50, Grace.ObsKind.rock⟩
    (by norm_num [rollsObstacleSpawn]) rfl (by norm_num [rollsObstacleSpawn])

/-- Counterexample to C9 as stated: the no-grace variant has no minimum-gap
check. With the last obstacle still at the spawn position `x = 1000`, a
successful spawn roll appends a second obstacle at the very same position:
after the tick the two consecutively spawned obstacles coincide. -/
theorem min_gap_counterexample :
    (NoGrace.update 0 rollsObstacleSpawn ngCloseObstacleState).obstacles =
      [⟨994.999, 50, 50, NoGrace.ObsKind.rock⟩,
       ⟨994.999, 50, 50, NoGrace.ObsKind.rock⟩] := by
  norm_num [NoGrace.update, ngCloseObstacleState, rollsObstacleSpawn,
    NoGrace.physicsStep, NoGrace.GRAVITY, NoGrace.SPEED_INCREMENT,
    NoGrace.spawnObstacle, NoGrace.spawnCoin, NoGrace.advanceObstacles,
    NoGrace.advanceCoins, NoGrace.playerHitbox, NoGrace.obstacleHitbox,
    NoGrace.coinHitbox, NoGrace.hitsObstacle, NoGrace.collectCoins,
    rectsOverlap]
